import Mathlib

/-!
A verification development of the filesystem storage engine in
`database/src/fs.rs` of the hagrid key server: path layout (sharding and
reverse parsing), index symlinks (link/unlink/check), store tiers
(full/quarantined/published reads and writes), and the consistency checker.

Rust strings are byte sequences, so identifier strings are modelled as lists
of bytes (`List Nat`); filesystem paths are lists of components, root first.
The filesystem itself is modelled as a pair of partial maps: regular-file
contents and symlink targets.  Index symlinks in this store always point (via
a relative path) at regular published files, so symlink resolution needs at
most one level, matching `path_to_primary` in the source.

The `Fingerprint`, `KeyID` and `Email` value types live in `types.rs`, which
is not part of this tree; they are modelled from the spec (a fingerprint's
canonical string is 40 hex characters, a key id is its last 16 characters,
emails are opaque validated byte strings).
-/

namespace HagridFs

/-- A byte string (Rust `str`/`[u8]`). -/
abbrev Str := List Nat

/-- A filesystem path as a list of components, root first. -/
abbrev Path := List Str

/-- Bytes of an ASCII literal. -/
def str (s : String) : Str := s.toList.map Char.toNat

def sKeys : Str := str (r"keys")
def sTmp : Str := str (r"tmp")
def sFull : Str := str (r"full")
def sQuarantined : Str := str (r"quarantined")
def sPub : Str := str (r"pub")
def sLinks : Str := str (r"links")
def sByFpr : Str := str (r"by-fpr")
def sByKeyid : Str := str (r"by-keyid")
def sByEmail : Str := str (r"by-email")

/-- The parent-directory path component. -/
def dotdot : Str := str (r"..")

/-- `path_split` (fs.rs:605-611): shard a string into a 2/2/remainder
component triple; strings of length at most 4 stay unsplit. -/
def path_split (s : Str) : Path :=
  if s.length > 4 then [s.take 2, (s.drop 2).take 2, s.drop 4] else [s]

/-- `path_merge` (fs.rs:613-617): concatenate the last three path components
in original order. -/
def path_merge (p : Path) : Str := ((p.reverse.take 3).reverse).flatten

def isHexByte (b : Nat) : Bool :=
  (48 ≤ b && b ≤ 57) || (65 ≤ b && b ≤ 70) || (97 ≤ b && b ≤ 102)

/-- Modelled from the spec: the `Fingerprint` value type of `types.rs` (not
under src/) — a fingerprint's canonical string is exactly 40 hex characters. -/
def ValidFpr (s : Str) : Bool := s.length == 40 && s.all isHexByte

/-- Modelled from the spec: `Fingerprint::from_str` accepts exactly the
40-hex-character canonical strings. -/
def fingerprint_from_str (s : Str) : Option Str :=
  if ValidFpr s then some s else none

/-- Modelled from the spec: a `KeyID` is the last 16 hex characters of a
fingerprint (`KeyID::from(&Fingerprint)` in `types.rs`, not under src/). -/
def keyid_of_fpr (f : Str) : Str := f.drop (f.length - 16)

/-- `url::form_urlencoded::byte_serialize`: ASCII alphanumerics and `*-._`
pass through, space becomes `+`, every other byte becomes `%XX`. -/
def isFormUnreserved (b : Nat) : Bool :=
  (48 ≤ b && b ≤ 57) || (65 ≤ b && b ≤ 90) || (97 ≤ b && b ≤ 122) ||
  b == 42 || b == 45 || b == 46 || b == 95

def hexUpperDigit (n : Nat) : Nat := if n < 10 then 48 + n else 55 + n

def encodeByte (b : Nat) : Str :=
  if isFormUnreserved b then [b]
  else if b == 32 then [43]
  else [37, hexUpperDigit (b / 16), hexUpperDigit (b % 16)]

def formUrlEncode (s : Str) : Str := (s.map encodeByte).flatten

def hexVal (b : Nat) : Option Nat :=
  if 48 ≤ b ∧ b ≤ 57 then some (b - 48)
  else if 65 ≤ b ∧ b ≤ 70 then some (b - 55)
  else if 97 ≤ b ∧ b ≤ 102 then some (b - 87)
  else none

/-- Percent-plus decoding as applied by `url::form_urlencoded::parse` to one
key: `+` is a space, `%XX` is a byte, malformed escapes pass through. -/
def percentPlusDecode : Str → Str
  | [] => []
  | b :: r =>
    if b = 43 then 32 :: percentPlusDecode r
    else if b = 37 then
      match r with
      | h :: l :: r2 =>
        match hexVal h, hexVal l with
        | some x, some y => (16 * x + y) :: percentPlusDecode r2
        | _, _ => b :: percentPlusDecode (h :: l :: r2)
      | [] => [b]
      | [h] => b :: percentPlusDecode [h]
    else b :: percentPlusDecode r
termination_by s => s.length
decreasing_by all_goals simp <;> omega

/-- `url::form_urlencoded::parse(..).next().0` (fs.rs:186): the first
key-value pair's key, i.e. the decoded bytes up to the first `&` or `=`. -/
def decodeFirstKey (s : Str) : Str :=
  percentPlusDecode (s.takeWhile (fun b => b != 38 && b != 61))

/-- `pathdiff::diff_paths` for two paths under a common root: strip the
common prefix, go up once per remaining base component, then down the
remaining path components. -/
def ddFor (l : Path) : Path := l.map (fun _ => dotdot)

def diff_paths : Path → Path → Path
  | p, [] => p
  | [], b => ddFor b
  | x :: p, y :: b => if x = y then diff_paths p b else ddFor (y :: b) ++ x :: p

/-- The configured directories of `struct Filesystem` (fs.rs:23-37). -/
structure Filesystem where
  tmp_dir : Path
  keys_internal_dir : Path
  keys_external_dir : Path
  keys_dir_full : Path
  keys_dir_quarantined : Path
  keys_dir_published : Path
  links_dir_by_fingerprint : Path
  links_dir_by_keyid : Path
  links_dir_by_email : Path
  dry_run : Bool

/-- `Filesystem::new_internal` (fs.rs:68-113). -/
def new_internal (keys_internal_dir keys_external_dir tmp_dir : Path)
    (dry_run : Bool) : Filesystem where
  tmp_dir := tmp_dir
  keys_internal_dir := keys_internal_dir
  keys_external_dir := keys_external_dir
  keys_dir_full := keys_internal_dir ++ [sFull]
  keys_dir_quarantined := keys_internal_dir ++ [sQuarantined]
  keys_dir_published := keys_external_dir ++ [sPub]
  links_dir_by_fingerprint := keys_external_dir ++ [sLinks, sByFpr]
  links_dir_by_keyid := keys_external_dir ++ [sLinks, sByKeyid]
  links_dir_by_email := keys_external_dir ++ [sLinks, sByEmail]
  dry_run := dry_run

/-- `Filesystem::new_from_base` (fs.rs:51-58). -/
def new_from_base (base : Path) : Filesystem :=
  new_internal (base ++ [sKeys]) (base ++ [sKeys]) (base ++ [sTmp]) false

def fingerprint_to_path_full (db : Filesystem) (fpr : Str) : Path :=
  db.keys_dir_full ++ path_split fpr

/-- The quarantined store keeps records unsharded (fs.rs:122-125). -/
def fingerprint_to_path_quarantined (db : Filesystem) (fpr : Str) : Path :=
  db.keys_dir_quarantined ++ [fpr]

def fingerprint_to_path_published (db : Filesystem) (fpr : Str) : Path :=
  db.keys_dir_published ++ path_split fpr

def link_by_keyid (db : Filesystem) (keyid : Str) : Path :=
  db.links_dir_by_keyid ++ path_split keyid

def link_by_fingerprint (db : Filesystem) (fpr : Str) : Path :=
  db.links_dir_by_fingerprint ++ path_split fpr

/-- `link_by_email` (fs.rs:146-151): percent-encode, then shard. -/
def link_by_email (db : Filesystem) (email : Str) : Path :=
  db.links_dir_by_email ++ path_split (formUrlEncode email)

/-- The mutable filesystem under the configured roots: regular-file contents
and symlink targets (targets are stored relative, as the engine writes them). -/
@[ext] structure FsState where
  files : Path → Option Str
  symlinks : Path → Option Path

/-- Collapse `..` components against the accumulated absolute path. -/
def normalize (p : Path) : Path :=
  p.foldl (fun acc c => if c = dotdot then acc.dropLast else acc ++ [c]) []

/-- Resolve one level of symlink (targets are relative to the link's
directory).  Index links point directly at regular published files, so one
level is exact here. -/
def resolveOne (st : FsState) (p : Path) : Path :=
  match st.symlinks p with
  | some t => normalize (p.dropLast ++ t)
  | none => p

/-- `Path::exists` (follows the link). -/
def pathExists (st : FsState) (p : Path) : Bool :=
  (st.files (resolveOne st p)).isSome

/-- `Path::canonicalize`: the resolved path, failing when the target is
absent. -/
def canonicalize (st : FsState) (p : Path) : Option Path :=
  if (st.files (resolveOne st p)).isSome then some (resolveOne st p) else none

/-- The create-or-replace `symlink` primitive (fs.rs:250-263): after it, the
name holds exactly the new target (a pre-existing file or link is replaced). -/
def setSymlink (st : FsState) (name target : Path) : FsState where
  files := fun p => if p = name then none else st.files p
  symlinks := fun p => if p = name then some target else st.symlinks p

/-- `remove_file`. -/
def removeEntry (st : FsState) (name : Path) : FsState where
  files := fun p => if p = name then none else st.files p
  symlinks := fun p => if p = name then none else st.symlinks p

/-- `path_to_fingerprint` (fs.rs:169-173). -/
def path_to_fingerprint (p : Path) : Option Str :=
  fingerprint_from_str (path_merge p)

/-- `path_to_primary` (fs.rs:191-200): at most one level of symlink — a
symlink's target is reverse-mapped, a regular file's own path is
reverse-mapped; a missing path fails the metadata call. -/
def path_to_primary (st : FsState) (p : Path) : Option Str :=
  match st.symlinks p with
  | some t => path_to_fingerprint t
  | none => if (st.files p).isSome then path_to_fingerprint p else none

/-- Result of `read_from_path` (fs.rs:153-166): the confinement violation is
a panic, not a recoverable value. -/
inductive ReadResult
  | panicked
  | found (c : Str)
  | absent
  deriving DecidableEq

def read_from_path (db : Filesystem) (st : FsState) (path : Path)
    (allow_internal : Bool) : ReadResult :=
  if !(db.keys_external_dir.isPrefixOf path) &&
      !(allow_internal && db.keys_internal_dir.isPrefixOf path) then
    .panicked
  else if pathExists st path then
    match st.files (resolveOne st path) with
    | some c => .found c
    | none => .absent
  else .absent

/-- `by_fpr_full` (fs.rs:447-450): the full tier read permits the internal
root. -/
def by_fpr_full (db : Filesystem) (st : FsState) (fpr : Str) : ReadResult :=
  read_from_path db st (fingerprint_to_path_full db fpr) true

def by_primary_fpr (db : Filesystem) (st : FsState) (fpr : Str) : ReadResult :=
  read_from_path db st (fingerprint_to_path_published db fpr) false

def by_fpr (db : Filesystem) (st : FsState) (fpr : Str) : ReadResult :=
  read_from_path db st (link_by_fingerprint db fpr) false

def by_email (db : Filesystem) (st : FsState) (email : Str) : ReadResult :=
  read_from_path db st (link_by_email db email) false

def by_kid (db : Filesystem) (st : FsState) (kid : Str) : ReadResult :=
  read_from_path db st (link_by_keyid db kid) false

inductive CheckLinkResult
  | fprCollision
  | keyidCollision
  | ok (r : Option Str)
  deriving DecidableEq

/-- One collision test of `check_link_fpr`: pass when `canonicalize` fails
(entry absent), or when the canonical target has the published path of the
target primary as a component suffix (`Path::ends_with`). -/
def collisionCheck (st : FsState) (link path_published : Path) : Bool :=
  match canonicalize st link with
  | some t => path_published.isSuffixOf t
  | none => true

/-- `check_link_fpr` (fs.rs:314-341).  Faithful to the source: both collision
tests canonicalize `link_keyid` — the first binds the result as
`link_fpr_target` but never reads `link_fpr` (fs.rs:320). -/
def check_link_fpr (db : Filesystem) (st : FsState) (fpr fpr_target : Str) :
    CheckLinkResult :=
  if !(collisionCheck st (link_by_keyid db (keyid_of_fpr fpr))
        (fingerprint_to_path_published db fpr_target)) then
    .fprCollision
  else if !(collisionCheck st (link_by_keyid db (keyid_of_fpr fpr))
        (fingerprint_to_path_published db fpr_target)) then
    .keyidCollision
  else if !(pathExists st (link_by_fingerprint db fpr)) ||
      !(pathExists st (link_by_keyid db (keyid_of_fpr fpr))) then
    .ok (some fpr)
  else
    .ok none

inductive Query
  | ByFingerprint (f : Str)
  | ByKeyID (k : Str)
  | ByEmail (e : Str)
  deriving DecidableEq

/-- `lookup_primary_fingerprint` (fs.rs:343-353): read the index entry's
target and reverse-map it; no record contents are read. -/
def lookup_primary_fingerprint (db : Filesystem) (st : FsState)
    (term : Query) : Option Str :=
  let path := match term with
    | .ByFingerprint f => link_by_fingerprint db f
    | .ByKeyID k => link_by_keyid db k
    | .ByEmail e => link_by_email db e
  (st.symlinks path).bind (fun t => path_to_fingerprint t)

/-- `link_email` (fs.rs:372-386).  The second component records whether the
create-or-replace `symlink` primitive was performed.  Faithful to the source:
the no-op test compares the link path itself against the relative target. -/
def link_email (db : Filesystem) (st : FsState) (email fpr : Str) :
    FsState × Bool :=
  if db.dry_run then (st, false)
  else
    let link := link_by_email db email
    let target := diff_paths (fingerprint_to_path_published db fpr)
        link.dropLast
    if link = target then (st, false)
    else (setSymlink st link target, true)

/-- `unlink_email` (fs.rs:388-404): delete only an entry whose current target
equals the expected target for `fpr`. -/
def unlink_email (db : Filesystem) (st : FsState) (email fpr : Str) :
    FsState :=
  let link := link_by_email db email
  match st.symlinks link with
  | some target =>
    if target = diff_paths (fingerprint_to_path_published db fpr)
        link.dropLast then
      removeEntry st link
    else st
  | none => st

/-- `link_fpr` (fs.rs:406-418): set both the by-fingerprint and the by-keyid
entry; the shared target is computed relative to the by-fingerprint entry's
directory. -/
def link_fpr (db : Filesystem) (st : FsState) (fromFpr primary_fpr : Str) :
    FsState :=
  if db.dry_run then st
  else
    let lf := link_by_fingerprint db fromFpr
    let lk := link_by_keyid db (keyid_of_fpr fromFpr)
    let target := diff_paths (fingerprint_to_path_published db primary_fpr)
        lf.dropLast
    setSymlink (setSymlink st lf target) lk target

/-- `unlink_fpr` (fs.rs:420-444). -/
def unlink_fpr (db : Filesystem) (st : FsState) (fromFpr primary_fpr : Str) :
    FsState :=
  let lf := link_by_fingerprint db fromFpr
  let lk := link_by_keyid db (keyid_of_fpr fromFpr)
  let expected := diff_paths (fingerprint_to_path_published db primary_fpr)
      lf.dropLast
  let st1 := match st.symlinks lf with
    | some target => if target = expected then removeEntry st lf else st
    | none => st
  match st1.symlinks lk with
  | some target => if target = expected then removeEntry st1 lk else st1
  | none => st1

/-- The staged temporary file of `write_to_temp`. -/
structure TempFile where
  content : Str
  deriving DecidableEq

/-- The externally observable effect of one store-tier write: nothing, or a
record persisted at a final path with given permission bits. -/
inductive StoreAction
  | noWrite
  | persist (target : Path) (mode : Nat) (content : Str)
  deriving DecidableEq

/-- `move_tmp_to_full` (fs.rs:281-289): dry-run returns Ok without touching
the filesystem; otherwise the mode is set to `0o640` and the file persisted. -/
def move_tmp_to_full (db : Filesystem) (file : TempFile) (fpr : Str) :
    StoreAction :=
  if db.dry_run then .noWrite
  else .persist (fingerprint_to_path_full db fpr) 0o640 file.content

/-- `move_tmp_to_published` (fs.rs:291-299): dry-run returns Ok without
touching the filesystem; otherwise mode `0o644`. -/
def move_tmp_to_published (db : Filesystem) (file : TempFile) (fpr : Str) :
    StoreAction :=
  if db.dry_run then .noWrite
  else .persist (fingerprint_to_path_published db fpr) 0o644 file.content

/-- `write_to_quarantine` (fs.rs:301-312): persists unconditionally — no
dry-run test and no `set_permissions` call, so the record keeps the temporary
file's mode `tmp_mode` (a tempfile-crate default, outside src/). -/
def write_to_quarantine (db : Filesystem) (fpr content : Str)
    (tmp_mode : Nat) : StoreAction :=
  .persist (fingerprint_to_path_quarantined db fpr) tmp_mode content

def modeOwnerRead (m : Nat) : Bool := m / 0o400 % 2 == 1
def modeOwnerWrite (m : Nat) : Bool := m / 0o200 % 2 == 1
def modeGroupRead (m : Nat) : Bool := m / 0o40 % 2 == 1
def modeGroupWrite (m : Nat) : Bool := m / 0o20 % 2 == 1
def modeWorldRead (m : Nat) : Bool := m / 4 % 2 == 1
def modeWorldWrite (m : Nat) : Bool := m / 2 % 2 == 1

/-- The read-only capability over a parsed certificate that the checker
needs (spec §1): primary fingerprint, (sub)key fingerprints, user-id emails. -/
structure TPK where
  primary : Str
  keys : List Str
  emails : List Str
  deriving DecidableEq

inductive CErr
  | malformedPath (p : Path)
  | noTPK (fpr : Str)
  | wrongTPK (p : Path) (fp primary : Str)
  deriving DecidableEq

inductive CheckOutcome
  | passed
  | failed (e : CErr)
  deriving DecidableEq

/-- Modelled from the spec: the `lookup` trait method (database crate root,
not under src/) resolves a by-fingerprint query through the index to the
published record and parses it; an absent record yields no certificate. -/
def lookup_tpk (db : Filesystem) (st : FsState) (parse : Str → Option TPK)
    (fpr : Str) : Option TPK :=
  match by_fpr db st fpr with
  | .found c => parse c
  | _ => none

/-- `perform_checks` (fs.rs:202-245) over the non-directory entries of one
walk: resolve each entry's primary fingerprint from its path alone, load the
certificate through the index (the source caches it; the cache only avoids
repeated loads and does not change any outcome), then run the per-entry
check.  The first failure aborts the pass. -/
def perform_checks (db : Filesystem) (st : FsState)
    (parse : Str → Option TPK) (check : Path → TPK → Str → CheckOutcome) :
    List Path → CheckOutcome
  | [] => .passed
  | p :: rest =>
    match path_to_primary st p with
    | none => .failed (.malformedPath p)
    | some primary =>
      match lookup_tpk db st parse primary with
      | none => .failed (.noTPK primary)
      | some tpk =>
        match check p tpk primary with
        | .failed e => .failed e
        | .passed => perform_checks db st parse check rest

/-- The first closure of `check_consistency` (fs.rs:487-501): decode the
path's own fingerprint and compare it with the resolved primary. -/
def i1_check (p : Path) (primary_fp : Str) : CheckOutcome :=
  match path_to_fingerprint p with
  | none => .failed (.malformedPath p)
  | some fp => if fp = primary_fp then .passed
    else .failed (.wrongTPK p fp primary_fp)

/-- The I1 pass of `check_consistency`: `perform_checks` over the published
tree with the path-identity closure. -/
def check_consistency_i1 (db : Filesystem) (st : FsState)
    (parse : Str → Option TPK) (entries : List Path) : CheckOutcome :=
  perform_checks db st parse (fun p _ primary => i1_check p primary) entries

/-! Concrete inputs for witnesses and counterexamples. -/

def fprA : Str := List.replicate 40 65
def fprB : Str := List.replicate 40 66
def fprC : Str := List.replicate 40 67
def fprD : Str := List.replicate 40 68
def emailA : Str := str (r"a@example.org")
def contentA : Str := [107]
def fileA : TempFile := ⟨contentA⟩
def baseA : Path := [str (r"b")]
def db0 : Filesystem := new_from_base baseA
def st_empty : FsState := ⟨fun _ => none, fun _ => none⟩

/-- C1's failing input: the by-fingerprint entry for subkey `fprA` exists and
resolves to the published record of `fprC`; the by-keyid entry is absent. -/
def relC : Path :=
  diff_paths (fingerprint_to_path_published db0 fprC)
    ((link_by_fingerprint db0 fprA).dropLast)

def stC1 : FsState :=
  ⟨fun p => if p = fingerprint_to_path_published db0 fprC then some contentA
      else none,
   fun p => if p = link_by_fingerprint db0 fprA then some relC else none⟩

/-- C7's input: the by-email entry for `emailA` already holds exactly the
expected relative target for `fprA`, whose published record exists. -/
def relA7 : Path :=
  diff_paths (fingerprint_to_path_published db0 fprA)
    ((link_by_email db0 emailA).dropLast)

def st7 : FsState :=
  ⟨fun p => if p = fingerprint_to_path_published db0 fprA then some contentA
      else none,
   fun p => if p = link_by_email db0 emailA then some relA7 else none⟩

/-- C5's input: the quarantined record of `fprA` is present. -/
def st5 : FsState :=
  ⟨fun p => if p = fingerprint_to_path_quarantined db0 fprA then some contentA
      else none,
   fun _ => none⟩

/-- C5's witness input: the full-tier record of `fprA` is present. -/
def stF : FsState :=
  ⟨fun p => if p = fingerprint_to_path_full db0 fprA then some contentA
      else none,
   fun _ => none⟩

/-- C4's input: a published record whose path encodes `fprD` while the
certificate stored there has primary fingerprint `fprC`; no index entries. -/
def tpkC : TPK := ⟨fprC, [fprC], []⟩

def parse4 : Str → Option TPK :=
  fun c => if c = contentA then some tpkC else none

def st4 : FsState :=
  ⟨fun p => if p = fingerprint_to_path_published db0 fprD then some contentA
      else none,
   fun _ => none⟩

/-! Helper lemmas about the path layout. -/

theorem path_split_flatten (s : Str) : (path_split s).flatten = s := by
  unfold path_split
  by_cases h : s.length > 4
  · rw [if_pos h]
    show s.take 2 ++ ((s.drop 2).take 2 ++ (s.drop 4 ++ [])) = s
    rw [List.append_nil,
      show s.drop 4 = (s.drop 2).drop 2 by rw [List.drop_drop],
      List.take_append_drop, List.take_append_drop]
  · rw [if_neg h]
    show s ++ [] = s
    exact List.append_nil s

theorem path_split_ne_nil (s : Str) : path_split s ≠ [] := by
  unfold path_split
  by_cases h : s.length > 4 <;> simp [h]

theorem path_split_inj {s t : Str} (h : path_split s = path_split t) :
    s = t := by
  have h2 := congrArg List.flatten h
  rwa [path_split_flatten, path_split_flatten] at h2

theorem path_merge_last3 (q : Path) (a b c : Str) :
    path_merge (q ++ [a, b, c]) = a ++ (b ++ c) := by
  unfold path_merge
  rw [List.reverse_append]
  show ((c :: b :: a :: q.reverse).take 3).reverse.flatten = a ++ (b ++ c)
  simp [List.take]

theorem path_merge_append (q : Path) (s : Str) (h : 4 < s.length) :
    path_merge (q ++ path_split s) = s := by
  have hsp : path_split s = [s.take 2, (s.drop 2).take 2, s.drop 4] := by
    unfold path_split
    rw [if_pos h]
  rw [hsp, path_merge_last3,
    show s.drop 4 = (s.drop 2).drop 2 by rw [List.drop_drop],
    List.take_append_drop, List.take_append_drop]

theorem ValidFpr_length {f : Str} (h : ValidFpr f = true) : f.length = 40 := by
  simp [ValidFpr, Bool.and_eq_true] at h
  exact h.1

theorem path_to_fingerprint_append (q : Path) {f : Str}
    (h : ValidFpr f = true) : path_to_fingerprint (q ++ path_split f) = some f := by
  have hl := ValidFpr_length h
  rw [path_to_fingerprint, path_merge_append q f (by omega),
    fingerprint_from_str, if_pos h]

/-! Helper lemmas about `diff_paths`. -/

theorem diff_paths_strip (B p q : Path) :
    diff_paths (B ++ p) (B ++ q) = diff_paths p q := by
  induction B with
  | nil => rfl
  | cons a B ih => simpa [diff_paths] using ih

theorem diff_paths_mismatch {x y : Str} (p q : Path) (h : x ≠ y) :
    diff_paths (x :: p) (y :: q) = ddFor (y :: q) ++ x :: p := by
  simp [diff_paths, if_neg h]

theorem sPub_ne_sLinks : sPub ≠ sLinks := by decide

theorem sByFpr_ne_sByKeyid : sByFpr ≠ sByKeyid := by decide

theorem dotdot_ne_sLinks : sLinks ≠ dotdot := by decide

/-! Decomposition of published paths, link paths and expected link targets
for a database built by `new_internal`. -/

theorem published_decomp (ki ke tmp : Path) (d : Bool) (f : Str) :
    fingerprint_to_path_published (new_internal ki ke tmp d) f
      = ke ++ (sPub :: path_split f) := by
  simp [fingerprint_to_path_published, new_internal]

theorem link_by_email_decomp (ki ke tmp : Path) (d : Bool) (e : Str) :
    link_by_email (new_internal ki ke tmp d) e
      = ke ++ (sLinks :: sByEmail :: path_split (formUrlEncode e)) := by
  simp [link_by_email, new_internal]

theorem link_by_fingerprint_decomp (ki ke tmp : Path) (d : Bool) (f : Str) :
    link_by_fingerprint (new_internal ki ke tmp d) f
      = ke ++ (sLinks :: sByFpr :: path_split f) := by
  simp [link_by_fingerprint, new_internal]

theorem link_by_keyid_decomp (ki ke tmp : Path) (d : Bool) (k : Str) :
    link_by_keyid (new_internal ki ke tmp d) k
      = ke ++ (sLinks :: sByKeyid :: path_split k) := by
  simp [link_by_keyid, new_internal]

theorem dropLast_cons_cons (a b : Str) (l : Path) :
    (a :: b :: l).dropLast = a :: (b :: l).dropLast := by
  rw [show a :: b :: l = [a] ++ (b :: l) from rfl,
    List.dropLast_append_of_ne_nil [a] (by simp)]
  rfl

theorem link_by_email_parent (ki ke tmp : Path) (d : Bool) (e : Str) :
    (link_by_email (new_internal ki ke tmp d) e).dropLast
      = ke ++ (sLinks :: (sByEmail :: path_split (formUrlEncode e)).dropLast) := by
  rw [link_by_email_decomp,
    List.dropLast_append_of_ne_nil ke (by simp), dropLast_cons_cons]

theorem link_by_fingerprint_parent (ki ke tmp : Path) (d : Bool) (f : Str) :
    (link_by_fingerprint (new_internal ki ke tmp d) f).dropLast
      = ke ++ (sLinks :: (sByFpr :: path_split f).dropLast) := by
  rw [link_by_fingerprint_decomp,
    List.dropLast_append_of_ne_nil ke (by simp), dropLast_cons_cons]

/-- The expected relative target of a by-email entry: up out of the entry's
directory, then down into `pub` and the published shard. -/
theorem expected_email_eq (ki ke tmp : Path) (d : Bool) (e f : Str) :
    diff_paths (fingerprint_to_path_published (new_internal ki ke tmp d) f)
        ((link_by_email (new_internal ki ke tmp d) e).dropLast)
      = ddFor (sLinks :: (sByEmail :: path_split (formUrlEncode e)).dropLast)
          ++ sPub :: path_split f := by
  rw [published_decomp, link_by_email_parent, diff_paths_strip,
    diff_paths_mismatch _ _ sPub_ne_sLinks]

/-- The expected relative target of a by-fingerprint entry (also used for the
sibling by-keyid entry, fs.rs:413). -/
theorem expected_fpr_eq (ki ke tmp : Path) (d : Bool) (f0 f : Str) :
    diff_paths (fingerprint_to_path_published (new_internal ki ke tmp d) f)
        ((link_by_fingerprint (new_internal ki ke tmp d) f0).dropLast)
      = ddFor (sLinks :: (sByFpr :: path_split f0).dropLast)
          ++ sPub :: path_split f := by
  rw [published_decomp, link_by_fingerprint_parent, diff_paths_strip,
    diff_paths_mismatch _ _ sPub_ne_sLinks]

theorem expected_email_inj (ki ke tmp : Path) (d : Bool) {e f1 f2 : Str}
    (h : diff_paths (fingerprint_to_path_published (new_internal ki ke tmp d) f1)
        ((link_by_email (new_internal ki ke tmp d) e).dropLast)
      = diff_paths (fingerprint_to_path_published (new_internal ki ke tmp d) f2)
        ((link_by_email (new_internal ki ke tmp d) e).dropLast)) : f1 = f2 := by
  rw [expected_email_eq, expected_email_eq] at h
  have h2 := List.append_cancel_left h
  exact path_split_inj (by injection h2)

theorem expected_fpr_inj (ki ke tmp : Path) (d : Bool) {f0 f1 f2 : Str}
    (h : diff_paths (fingerprint_to_path_published (new_internal ki ke tmp d) f1)
        ((link_by_fingerprint (new_internal ki ke tmp d) f0).dropLast)
      = diff_paths (fingerprint_to_path_published (new_internal ki ke tmp d) f2)
        ((link_by_fingerprint (new_internal ki ke tmp d) f0).dropLast)) :
    f1 = f2 := by
  rw [expected_fpr_eq, expected_fpr_eq] at h
  have h2 := List.append_cancel_left h
  exact path_split_inj (by injection h2)

/-- The link name can never equal the relative target the source compares it
against in `link_email` (fs.rs:381): the target starts with `..`. -/
theorem link_ne_expected_email (ki ke tmp : Path) (d : Bool) (e f : Str)
    (hdd : dotdot ∉ ke) :
    link_by_email (new_internal ki ke tmp d) e
      ≠ diff_paths (fingerprint_to_path_published (new_internal ki ke tmp d) f)
          ((link_by_email (new_internal ki ke tmp d) e).dropLast) := by
  intro h
  rw [expected_email_eq, link_by_email_decomp] at h
  have hdd2 : ddFor (sLinks :: (sByEmail :: path_split (formUrlEncode e)).dropLast)
      ++ sPub :: path_split f
      = dotdot :: (ddFor ((sByEmail :: path_split (formUrlEncode e)).dropLast)
          ++ sPub :: path_split f) := by
    simp [ddFor]
  rw [hdd2] at h
  cases ke with
  | nil =>
    exact dotdot_ne_sLinks (by injection h)
  | cons a ks =>
    have ha : a = dotdot := by injection h
    exact hdd (by rw [← ha]; exact List.mem_cons_self a ks)

theorem link_fpr_ne_link_keyid (ki ke tmp : Path) (d : Bool) (a b : Str) :
    link_by_fingerprint (new_internal ki ke tmp d) a
      ≠ link_by_keyid (new_internal ki ke tmp d) b := by
  intro h
  rw [link_by_fingerprint_decomp, link_by_keyid_decomp] at h
  have h2 := List.append_cancel_left h
  injection h2 with he ht
  injection ht with he2 ht2
  exact sByFpr_ne_sByKeyid he2

/-! Helper lemmas for the percent-encoding round trip. -/

theorem hexUpperDigit_lt {n : Nat} (h : n < 16) :
    hexVal (hexUpperDigit n) = some n := by
  interval_cases n <;> decide

theorem hexUpperDigit_safe {n : Nat} (h : n < 16) :
    (hexUpperDigit n != 38 && hexUpperDigit n != 61) = true := by
  interval_cases n <;> decide

theorem encodeByte_safe {b x : Nat} (hb : b < 256) (hx : x ∈ encodeByte b) :
    (x != 38 && x != 61) = true := by
  unfold encodeByte at hx
  by_cases h1 : isFormUnreserved b
  · rw [if_pos h1] at hx
    have hxb : x = b := by simpa using hx
    subst hxb
    have h38 : x ≠ 38 := fun hh => by subst hh; exact absurd h1 (by decide)
    have h61 : x ≠ 61 := fun hh => by subst hh; exact absurd h1 (by decide)
    simp [h38, h61]
  · rw [if_neg h1] at hx
    by_cases h2 : (b == 32) = true
    · rw [if_pos h2] at hx
      have hxb : x = 43 := by simpa using hx
      subst hxb
      decide
    · rw [if_neg h2] at hx
      have hdiv : b / 16 < 16 := by omega
      have hmod : b % 16 < 16 := by omega
      rcases (by simpa using hx :
          x = 37 ∨ x = hexUpperDigit (b / 16) ∨ x = hexUpperDigit (b % 16)) with
        rfl | rfl | rfl
      · decide
      · exact hexUpperDigit_safe hdiv
      · exact hexUpperDigit_safe hmod

theorem percentPlusDecode_nil : percentPlusDecode [] = [] := by
  rw [percentPlusDecode.eq_def]

theorem percentPlusDecode_cons (b : Nat) (r : Str) :
    percentPlusDecode (b :: r) =
      if b = 43 then 32 :: percentPlusDecode r
      else if b = 37 then
        match r with
        | h :: l :: r2 =>
          match hexVal h, hexVal l with
          | some x, some y => (16 * x + y) :: percentPlusDecode r2
          | _, _ => b :: percentPlusDecode (h :: l :: r2)
        | [] => [b]
        | [h] => b :: percentPlusDecode [h]
      else b :: percentPlusDecode r := by
  rw [percentPlusDecode.eq_def]
  rfl

theorem decode_encodeByte {b : Nat} (hb : b < 256) (t : Str) :
    percentPlusDecode (encodeByte b ++ t) = b :: percentPlusDecode t := by
  unfold encodeByte
  by_cases h1 : isFormUnreserved b
  · rw [if_pos h1]
    have h43 : b ≠ 43 := fun hh => by subst hh; exact absurd h1 (by decide)
    have h37 : b ≠ 37 := fun hh => by subst hh; exact absurd h1 (by decide)
    show percentPlusDecode (b :: t) = b :: percentPlusDecode t
    rw [percentPlusDecode_cons, if_neg h43, if_neg h37]
  · rw [if_neg h1]
    by_cases h2 : (b == 32) = true
    · rw [if_pos h2]
      have hb32 : b = 32 := by simpa using h2
      subst hb32
      show percentPlusDecode (43 :: t) = 32 :: percentPlusDecode t
      rw [percentPlusDecode_cons, if_pos rfl]
    · rw [if_neg h2]
      have hdiv : b / 16 < 16 := by omega
      have hmod : b % 16 < 16 := by omega
      show percentPlusDecode
          (37 :: hexUpperDigit (b / 16) :: hexUpperDigit (b % 16) :: t)
        = b :: percentPlusDecode t
      rw [percentPlusDecode_cons,
        if_neg (by decide : ¬((37 : Nat) = 43)), if_pos rfl]
      simp only [hexUpperDigit_lt hdiv, hexUpperDigit_lt hmod]
      simp [Nat.div_add_mod]

theorem takeWhile_all {p : Nat → Bool} {l : Str}
    (h : ∀ x ∈ l, p x = true) : l.takeWhile p = l := by
  induction l with
  | nil => rfl
  | cons a l ih =>
    rw [List.takeWhile_cons, h a (List.mem_cons_self a l),
      ih (fun x hx => h x (List.mem_cons_of_mem a hx))]
    simp

theorem formUrlEncode_safe {e : Str} (h : ∀ b ∈ e, b < 256) :
    ∀ x ∈ formUrlEncode e, (x != 38 && x != 61) = true := by
  intro x hx
  unfold formUrlEncode at hx
  rw [List.mem_flatten] at hx
  obtain ⟨l, hl, hxl⟩ := hx
  rw [List.mem_map] at hl
  obtain ⟨b, hb, rfl⟩ := hl
  exact encodeByte_safe (h b hb) hxl

theorem percentPlusDecode_encode {e : Str} (h : ∀ b ∈ e, b < 256) :
    percentPlusDecode (formUrlEncode e) = e := by
  induction e with
  | nil =>
    rw [show formUrlEncode [] = [] from rfl, percentPlusDecode_nil]
  | cons b t ih =>
    have hfe : formUrlEncode (b :: t) = encodeByte b ++ formUrlEncode t := by
      simp [formUrlEncode]
    rw [hfe, decode_encodeByte (h b (List.mem_cons_self b t)),
      ih (fun x hx => h x (List.mem_cons_of_mem b hx))]

/-! C2 -/

/-- C2: the reverse path mapping inverts the forward mapping —
`path_merge (path_split s) = s` for every identifier string, and email
identifiers additionally round-trip through percent-encoding and the
first-key decoding of `form_urlencoded::parse`. -/
theorem c2_path_layout_round_trip :
    (∀ s : Str, path_merge (path_split s) = s) ∧
    (∀ e : Str, (∀ b ∈ e, b < 256) →
      decodeFirstKey (formUrlEncode e) = e) := by
  constructor
  · intro s
    by_cases h : 4 < s.length
    · have := path_merge_append [] s h
      rwa [List.nil_append] at this
    · have hsp : path_split s = [s] := by
        unfold path_split
        rw [if_neg h]
      rw [hsp]
      show ([s].reverse.take 3).reverse.flatten = s
      simp
  · intro e h
    rw [decodeFirstKey, takeWhile_all (formUrlEncode_safe h),
      percentPlusDecode_encode h]

/-- Witness for C2 at a concrete fingerprint and email. -/
theorem c2_round_trip_witness :
    path_merge (path_split fprA) = fprA ∧
    decodeFirstKey (formUrlEncode emailA) = emailA :=
  ⟨c2_path_layout_round_trip.1 fprA,
   c2_path_layout_round_trip.2 emailA (by decide)⟩

/-! C6 -/

/-- C6: `read_from_path` reaches its fatal panic branch exactly when the path
lies outside the external root and also outside the internal root when the
caller permits internal access; within the permitted roots it returns the
contents or absence, never the panic; `by_fpr_full` is the full-tier read and
passes `allow_internal := true`. -/
theorem c6_read_from_path_confinement (db : Filesystem) (st : FsState)
    (p : Path) (allow : Bool) :
    (read_from_path db st p allow = .panicked ↔
      (!(db.keys_external_dir.isPrefixOf p) &&
        !(allow && db.keys_internal_dir.isPrefixOf p)) = true) ∧
    ((db.keys_external_dir.isPrefixOf p ||
        (allow && db.keys_internal_dir.isPrefixOf p)) = true →
      (∃ c, read_from_path db st p allow = .found c) ∨
        read_from_path db st p allow = .absent) ∧
    (∀ f, by_fpr_full db st f
      = read_from_path db st (fingerprint_to_path_full db f) true) := by
  refine ⟨?_, ?_, fun f => rfl⟩
  · unfold read_from_path
    by_cases hg : (!(db.keys_external_dir.isPrefixOf p) &&
        !(allow && db.keys_internal_dir.isPrefixOf p)) = true
    · rw [if_pos hg]
      simpa using hg
    · rw [if_neg hg]
      constructor
      · intro hcontra
        exfalso
        cases hpe : pathExists st p
        · simp [hpe] at hcontra
        · cases hf : st.files (resolveOne st p) <;>
            simp [hpe, hf] at hcontra
      · intro h
        exact absurd h hg
  · intro h
    have hg : (!(db.keys_external_dir.isPrefixOf p) &&
        !(allow && db.keys_internal_dir.isPrefixOf p)) = false := by
      cases hA : db.keys_external_dir.isPrefixOf p <;>
        cases hB : (allow && db.keys_internal_dir.isPrefixOf p) <;>
        simp_all
    unfold read_from_path
    rw [if_neg (show ¬((!(db.keys_external_dir.isPrefixOf p) &&
        !(allow && db.keys_internal_dir.isPrefixOf p)) = true) by
      rw [hg]; exact Bool.false_ne_true)]
    cases hpe : pathExists st p
    · exact Or.inr (by simp [hpe])
    · cases hf : st.files (resolveOne st p)
      · exact Or.inr (by simp [hpe, hf])
      · rename_i c0
        exact Or.inl ⟨c0, by simp [hpe, hf]⟩

/-- Witness for C6: a published-tier path lies inside the external root, so
the read does not panic. -/
theorem c6_confinement_witness :
    (∃ c, read_from_path db0 st_empty
        (fingerprint_to_path_published db0 fprA) false = .found c) ∨
      read_from_path db0 st_empty
        (fingerprint_to_path_published db0 fprA) false = .absent :=
  (c6_read_from_path_confinement db0 st_empty
    (fingerprint_to_path_published db0 fprA) false).2.1 (by decide)

/-! C8 -/

/-- C8: under dry-run, `move_tmp_to_full` and `move_tmp_to_published` return
Ok without writing anything, while `write_to_quarantine` persists the record
at the quarantined path whatever the dry-run flag is. -/
theorem c8_dry_run_asymmetry (ki ke tmp : Path) (dry : Bool)
    (file : TempFile) (f c : Str) (m : Nat) :
    (dry = true →
      move_tmp_to_full (new_internal ki ke tmp dry) file f = .noWrite ∧
      move_tmp_to_published (new_internal ki ke tmp dry) file f = .noWrite) ∧
    write_to_quarantine (new_internal ki ke tmp dry) f c m
      = .persist (fingerprint_to_path_quarantined (new_internal ki ke tmp dry) f)
          m c := by
  constructor
  · rintro rfl
    exact ⟨rfl, rfl⟩
  · rfl

/-- Witness for C8 at a concrete dry-run database. -/
theorem c8_dry_run_witness :
    move_tmp_to_full (new_internal baseA baseA baseA true) fileA fprA
      = .noWrite ∧
    move_tmp_to_published (new_internal baseA baseA baseA true) fileA fprA
      = .noWrite :=
  (c8_dry_run_asymmetry baseA baseA baseA true fileA fprA contentA 0).1 rfl

/-! C9 -/

/-- C9 counterexample: the full-tier write persists with mode `0o640`, whose
group-write bit is clear — the record does not end up owner+group
readable/writable as the claim states (and the quarantine write sets no mode
at all, keeping the temporary file's). -/
theorem c9_full_mode_counterexample :
    move_tmp_to_full db0 fileA fprA
      = .persist (fingerprint_to_path_full db0 fprA) 0o640 contentA ∧
    modeGroupWrite 0o640 = false := by
  exact ⟨rfl, by decide⟩

/-- C9 amended: before persisting, the full tier sets mode `0o640` (owner
read/write, group read only, no world access) and the published tier sets
mode `0o644` (world-readable); the quarantine write sets no permissions and
keeps the temporary file's mode. -/
theorem c9_tier_modes (ki ke tmp : Path) (file : TempFile) (f c : Str)
    (m : Nat) :
    move_tmp_to_full (new_internal ki ke tmp false) file f
      = .persist (fingerprint_to_path_full (new_internal ki ke tmp false) f)
          0o640 file.content ∧
    (modeOwnerRead 0o640 = true ∧ modeOwnerWrite 0o640 = true ∧
      modeGroupRead 0o640 = true ∧ modeGroupWrite 0o640 = false ∧
      modeWorldRead 0o640 = false ∧ modeWorldWrite 0o640 = false) ∧
    move_tmp_to_published (new_internal ki ke tmp false) file f
      = .persist (fingerprint_to_path_published (new_internal ki ke tmp false) f)
          0o644 file.content ∧
    modeWorldRead 0o644 = true ∧
    write_to_quarantine (new_internal ki ke tmp false) f c m
      = .persist
          (fingerprint_to_path_quarantined (new_internal ki ke tmp false) f)
          m c := by
  exact ⟨rfl, by decide, rfl, by decide, rfl⟩

/-! C1 -/

/-- C1 (code bug at fs.rs:320): the by-fingerprint entry for subkey `fprA`
exists and resolves to the published record of `fprC`, a different primary
than the target `fprB`, while the by-keyid entry is absent.  The spec
requires a fingerprint-collision error, but `check_link_fpr` returns
Ok(Some fprA) — telling the caller to overwrite the link — because both
collision tests canonicalize the by-keyid entry and never inspect the
by-fingerprint entry. -/
theorem c1_fpr_collision_missed :
    stC1.symlinks (link_by_fingerprint db0 fprA) = some relC ∧
    check_link_fpr db0 stC1 fprA fprB = .ok (some fprA) := by
  exact ⟨by decide, by decide⟩

/-! C5 -/

/-- C5 counterexample: for the quarantined path of `fprA` (stored unsharded),
`path_to_primary` concatenates the two parent directory names with the
fingerprint and fails to parse, returning none rather than Some `fprA`. -/
theorem c5_quarantined_counterexample :
    path_to_primary st5 (fingerprint_to_path_quarantined db0 fprA) = none := by
  decide

/-- C5 amended: `path_to_primary` resolves the stored full-tier and
published-tier paths of a fingerprint to that fingerprint, and resolves any
index symlink whose target ends in the published shard of the fingerprint
(in particular the published path itself, and the relative targets the link
operations write); the quarantined path does not resolve.  Resolution
follows at most one level of symlink by construction. -/
theorem c5_path_to_primary_resolves (ki ke tmp : Path) (st : FsState)
    (f : Str) (hv : ValidFpr f = true) :
    (st.symlinks (fingerprint_to_path_full (new_internal ki ke tmp false) f)
        = none →
      (st.files (fingerprint_to_path_full (new_internal ki ke tmp false) f)).isSome
        = true →
      path_to_primary st (fingerprint_to_path_full (new_internal ki ke tmp false) f)
        = some f) ∧
    (st.symlinks (fingerprint_to_path_published (new_internal ki ke tmp false) f)
        = none →
      (st.files (fingerprint_to_path_published (new_internal ki ke tmp false) f)).isSome
        = true →
      path_to_primary st
          (fingerprint_to_path_published (new_internal ki ke tmp false) f)
        = some f) ∧
    (∀ p q, st.symlinks p = some (q ++ path_split f) →
      path_to_primary st p = some f) := by
  refine ⟨?_, ?_, ?_⟩
  · intro hs hf
    unfold path_to_primary
    rw [hs]
    rw [if_pos hf]
    exact path_to_fingerprint_append (ki ++ [sFull]) hv
  · intro hs hf
    unfold path_to_primary
    rw [hs]
    rw [if_pos hf]
    exact path_to_fingerprint_append (ke ++ [sPub]) hv
  · intro p q hs
    unfold path_to_primary
    rw [hs]
    exact path_to_fingerprint_append q hv

/-- Witness for C5 at a concrete full-tier record. -/
theorem c5_resolve_witness :
    path_to_primary stF (fingerprint_to_path_full db0 fprA) = some fprA :=
  (c5_path_to_primary_resolves (baseA ++ [sKeys]) (baseA ++ [sKeys])
    (baseA ++ [sTmp]) stF fprA (by decide)).1 (by decide) (by decide)

/-! Reduction lemmas for the link operations. -/

theorem new_internal_dry_run (ki ke tmp : Path) (d : Bool) :
    (new_internal ki ke tmp d).dry_run = d := rfl

theorem setSymlink_idem (st : FsState) (l t : Path) :
    setSymlink (setSymlink st l t) l t = setSymlink st l t := by
  refine FsState.ext ?_ ?_ <;> funext q <;>
    by_cases hq : q = l <;> simp [setSymlink, hq]

/-- With dry-run off, `link_email` always takes the create-or-replace branch:
the no-op condition compares the link path with the relative target, which
can never be equal. -/
theorem link_email_creates (ki ke tmp : Path) (st : FsState) (e f : Str)
    (hdd : dotdot ∉ ke) :
    link_email (new_internal ki ke tmp false) st e f
      = (setSymlink st (link_by_email (new_internal ki ke tmp false) e)
          (diff_paths
            (fingerprint_to_path_published (new_internal ki ke tmp false) f)
            ((link_by_email (new_internal ki ke tmp false) e).dropLast)),
         true) := by
  have hne := link_ne_expected_email ki ke tmp false e f hdd
  simp only [link_email, new_internal_dry_run, Bool.false_eq_true, if_false]
  rw [if_neg hne]

theorem link_fpr_creates (ki ke tmp : Path) (st : FsState) (f0 f1 : Str) :
    link_fpr (new_internal ki ke tmp false) st f0 f1
      = setSymlink
          (setSymlink st (link_by_fingerprint (new_internal ki ke tmp false) f0)
            (diff_paths
              (fingerprint_to_path_published (new_internal ki ke tmp false) f1)
              ((link_by_fingerprint (new_internal ki ke tmp false) f0).dropLast)))
          (link_by_keyid (new_internal ki ke tmp false) (keyid_of_fpr f0))
          (diff_paths
            (fingerprint_to_path_published (new_internal ki ke tmp false) f1)
            ((link_by_fingerprint (new_internal ki ke tmp false) f0).dropLast)) := by
  simp only [link_fpr, new_internal_dry_run, Bool.false_eq_true, if_false]

/-! C7 -/

/-- C7 counterexample: the by-email entry already holds exactly the expected
relative target for `fprA`, yet `link_email` performs the create-or-replace
symlink again — the no-op check (fs.rs:381) compares the link path itself
with the relative target and cannot fire. -/
theorem c7_no_op_check_never_fires :
    st7.symlinks (link_by_email db0 emailA) = some relA7 ∧
    relA7 = diff_paths (fingerprint_to_path_published db0 fprA)
        ((link_by_email db0 emailA).dropLast) ∧
    (link_email db0 st7 emailA fprA).2 = true := by
  exact ⟨by decide, rfl, by decide⟩

/-- C7 amended: linking the same (email, fingerprint) twice is idempotent —
the second call never errors, afterwards exactly one entry exists with the
correct target and no other path is touched; but the operation re-creates the
symlink even when the entry already holds the expected target (second call
included), because the existing-entry check compares the link path with the
target. -/
theorem c7_link_email_idempotent (ki ke tmp : Path) (st : FsState)
    (e f : Str) (hdd : dotdot ∉ ke) :
    ((link_email (new_internal ki ke tmp false)
        ((link_email (new_internal ki ke tmp false) st e f).1) e f).1
      = (link_email (new_internal ki ke tmp false) st e f).1) ∧
    (((link_email (new_internal ki ke tmp false) st e f).1).symlinks
        (link_by_email (new_internal ki ke tmp false) e)
      = some (diff_paths
          (fingerprint_to_path_published (new_internal ki ke tmp false) f)
          ((link_by_email (new_internal ki ke tmp false) e).dropLast))) ∧
    (∀ q, q ≠ link_by_email (new_internal ki ke tmp false) e →
      ((link_email (new_internal ki ke tmp false) st e f).1).symlinks q
          = st.symlinks q ∧
      ((link_email (new_internal ki ke tmp false) st e f).1).files q
          = st.files q) ∧
    (link_email (new_internal ki ke tmp false)
        ((link_email (new_internal ki ke tmp false) st e f).1) e f).2
      = true := by
  have hcr := link_email_creates ki ke tmp st e f hdd
  refine ⟨?_, ?_, ?_, ?_⟩
  · rw [hcr]
    rw [link_email_creates ki ke tmp _ e f hdd]
    exact setSymlink_idem st _ _
  · rw [hcr]
    simp [setSymlink]
  · intro q hq
    rw [hcr]
    exact ⟨by simp [setSymlink, hq], by simp [setSymlink, hq]⟩
  · rw [hcr, link_email_creates ki ke tmp _ e f hdd]

/-- Witness for C7 at a concrete email and fingerprint over the empty
store. -/
theorem c7_idempotent_witness :
    (link_email (new_internal (baseA ++ [sKeys]) (baseA ++ [sKeys])
        (baseA ++ [sTmp]) false)
      ((link_email (new_internal (baseA ++ [sKeys]) (baseA ++ [sKeys])
          (baseA ++ [sTmp]) false) st_empty emailA fprA).1) emailA fprA).1
      = (link_email (new_internal (baseA ++ [sKeys]) (baseA ++ [sKeys])
          (baseA ++ [sTmp]) false) st_empty emailA fprA).1 :=
  (c7_link_email_idempotent (baseA ++ [sKeys]) (baseA ++ [sKeys])
    (baseA ++ [sTmp]) st_empty emailA fprA (by decide)).1

/-! C3 -/

/-- C3: `unlink_email` removes an entry only when its current target equals
the expected target for the given primary fingerprint — a missing entry is a
no-op, an entry with a different target is left intact, a matching entry is
deleted — and after linking an identifier to `f1`, unlinking it with
`f2 ≠ f1` leaves the link to `f1` in place, both for the by-email entry and
for the by-fingerprint/by-keyid entries of `unlink_fpr`. -/
theorem c3_unlink_only_matching (ki ke tmp : Path) (st : FsState)
    (e f f0 f1 f2 : Str) (hne : f1 ≠ f2) (hdd : dotdot ∉ ke) :
    (st.symlinks (link_by_email (new_internal ki ke tmp false) e) = none →
      unlink_email (new_internal ki ke tmp false) st e f = st) ∧
    (∀ t, st.symlinks (link_by_email (new_internal ki ke tmp false) e) = some t →
      t ≠ diff_paths
          (fingerprint_to_path_published (new_internal ki ke tmp false) f)
          ((link_by_email (new_internal ki ke tmp false) e).dropLast) →
      unlink_email (new_internal ki ke tmp false) st e f = st) ∧
    (st.symlinks (link_by_email (new_internal ki ke tmp false) e)
        = some (diff_paths
          (fingerprint_to_path_published (new_internal ki ke tmp false) f)
          ((link_by_email (new_internal ki ke tmp false) e).dropLast)) →
      (unlink_email (new_internal ki ke tmp false) st e f).symlinks
          (link_by_email (new_internal ki ke tmp false) e) = none) ∧
    ((unlink_email (new_internal ki ke tmp false)
          ((link_email (new_internal ki ke tmp false) st e f1).1) e f2).symlinks
        (link_by_email (new_internal ki ke tmp false) e)
      = some (diff_paths
          (fingerprint_to_path_published (new_internal ki ke tmp false) f1)
          ((link_by_email (new_internal ki ke tmp false) e).dropLast))) ∧
    ((unlink_fpr (new_internal ki ke tmp false)
          (link_fpr (new_internal ki ke tmp false) st f0 f1) f0 f2).symlinks
        (link_by_fingerprint (new_internal ki ke tmp false) f0)
      = some (diff_paths
          (fingerprint_to_path_published (new_internal ki ke tmp false) f1)
          ((link_by_fingerprint (new_internal ki ke tmp false) f0).dropLast))) ∧
    ((unlink_fpr (new_internal ki ke tmp false)
          (link_fpr (new_internal ki ke tmp false) st f0 f1) f0 f2).symlinks
        (link_by_keyid (new_internal ki ke tmp false) (keyid_of_fpr f0))
      = some (diff_paths
          (fingerprint_to_path_published (new_internal ki ke tmp false) f1)
          ((link_by_fingerprint (new_internal ki ke tmp false) f0).dropLast))) := by
  have ht12e : diff_paths
        (fingerprint_to_path_published (new_internal ki ke tmp false) f1)
        ((link_by_email (new_internal ki ke tmp false) e).dropLast)
      ≠ diff_paths
        (fingerprint_to_path_published (new_internal ki ke tmp false) f2)
        ((link_by_email (new_internal ki ke tmp false) e).dropLast) :=
    fun hh => hne (expected_email_inj ki ke tmp false hh)
  have ht12f : diff_paths
        (fingerprint_to_path_published (new_internal ki ke tmp false) f1)
        ((link_by_fingerprint (new_internal ki ke tmp false) f0).dropLast)
      ≠ diff_paths
        (fingerprint_to_path_published (new_internal ki ke tmp false) f2)
        ((link_by_fingerprint (new_internal ki ke tmp false) f0).dropLast) :=
    fun hh => hne (expected_fpr_inj ki ke tmp false hh)
  have hlk := link_fpr_ne_link_keyid ki ke tmp false f0 (keyid_of_fpr f0)
  refine ⟨?_, ?_, ?_, ?_, ?_, ?_⟩
  · intro h
    simp [unlink_email, h]
  · intro t h ht
    simp [unlink_email, h, ht]
  · intro h
    simp [unlink_email, h, removeEntry]
  · rw [link_email_creates ki ke tmp st e f1 hdd]
    have hsym : (setSymlink st (link_by_email (new_internal ki ke tmp false) e)
        (diff_paths
          (fingerprint_to_path_published (new_internal ki ke tmp false) f1)
          ((link_by_email (new_internal ki ke tmp false) e).dropLast))).symlinks
        (link_by_email (new_internal ki ke tmp false) e)
        = some (diff_paths
          (fingerprint_to_path_published (new_internal ki ke tmp false) f1)
          ((link_by_email (new_internal ki ke tmp false) e).dropLast)) := by
      simp [setSymlink]
    simp only [unlink_email, hsym, ht12e, if_false]
  · rw [link_fpr_creates ki ke tmp st f0 f1]
    have hlread : (setSymlink
        (setSymlink st (link_by_fingerprint (new_internal ki ke tmp false) f0)
          (diff_paths
            (fingerprint_to_path_published (new_internal ki ke tmp false) f1)
            ((link_by_fingerprint (new_internal ki ke tmp false) f0).dropLast)))
        (link_by_keyid (new_internal ki ke tmp false) (keyid_of_fpr f0))
        (diff_paths
          (fingerprint_to_path_published (new_internal ki ke tmp false) f1)
          ((link_by_fingerprint (new_internal ki ke tmp false) f0).dropLast))).symlinks
        (link_by_fingerprint (new_internal ki ke tmp false) f0)
        = some (diff_paths
          (fingerprint_to_path_published (new_internal ki ke tmp false) f1)
          ((link_by_fingerprint (new_internal ki ke tmp false) f0).dropLast)) := by
      simp [setSymlink, hlk]
    have hkread : (setSymlink
        (setSymlink st (link_by_fingerprint (new_internal ki ke tmp false) f0)
          (diff_paths
            (fingerprint_to_path_published (new_internal ki ke tmp false) f1)
            ((link_by_fingerprint (new_internal ki ke tmp false) f0).dropLast)))
        (link_by_keyid (new_internal ki ke tmp false) (keyid_of_fpr f0))
        (diff_paths
          (fingerprint_to_path_published (new_internal ki ke tmp false) f1)
          ((link_by_fingerprint (new_internal ki ke tmp false) f0).dropLast))).symlinks
        (link_by_keyid (new_internal ki ke tmp false) (keyid_of_fpr f0))
        = some (diff_paths
          (fingerprint_to_path_published (new_internal ki ke tmp false) f1)
          ((link_by_fingerprint (new_internal ki ke tmp false) f0).dropLast)) := by
      simp [setSymlink]
    simp only [unlink_fpr, hlread, hkread, ht12f, if_false]
  · rw [link_fpr_creates ki ke tmp st f0 f1]
    have hlread : (setSymlink
        (setSymlink st (link_by_fingerprint (new_internal ki ke tmp false) f0)
          (diff_paths
            (fingerprint_to_path_published (new_internal ki ke tmp false) f1)
            ((link_by_fingerprint (new_internal ki ke tmp false) f0).dropLast)))
        (link_by_keyid (new_internal ki ke tmp false) (keyid_of_fpr f0))
        (diff_paths
          (fingerprint_to_path_published (new_internal ki ke tmp false) f1)
          ((link_by_fingerprint (new_internal ki ke tmp false) f0).dropLast))).symlinks
        (link_by_fingerprint (new_internal ki ke tmp false) f0)
        = some (diff_paths
          (fingerprint_to_path_published (new_internal ki ke tmp false) f1)
          ((link_by_fingerprint (new_internal ki ke tmp false) f0).dropLast)) := by
      simp [setSymlink, hlk]
    have hkread : (setSymlink
        (setSymlink st (link_by_fingerprint (new_internal ki ke tmp false) f0)
          (diff_paths
            (fingerprint_to_path_published (new_internal ki ke tmp false) f1)
            ((link_by_fingerprint (new_internal ki ke tmp false) f0).dropLast)))
        (link_by_keyid (new_internal ki ke tmp false) (keyid_of_fpr f0))
        (diff_paths
          (fingerprint_to_path_published (new_internal ki ke tmp false) f1)
          ((link_by_fingerprint (new_internal ki ke tmp false) f0).dropLast))).symlinks
        (link_by_keyid (new_internal ki ke tmp false) (keyid_of_fpr f0))
        = some (diff_paths
          (fingerprint_to_path_published (new_internal ki ke tmp false) f1)
          ((link_by_fingerprint (new_internal ki ke tmp false) f0).dropLast)) := by
      simp [setSymlink]
    simp only [unlink_fpr, hlread, hkread, ht12f, if_false]

/-- Witness for C3: linking `emailA` to `fprA` and unlinking with `fprB`
leaves the link to `fprA` in place. -/
theorem c3_unlink_witness :
    (unlink_email (new_internal (baseA ++ [sKeys]) (baseA ++ [sKeys])
          (baseA ++ [sTmp]) false)
        ((link_email (new_internal (baseA ++ [sKeys]) (baseA ++ [sKeys])
            (baseA ++ [sTmp]) false) st_empty emailA fprA).1) emailA fprB).symlinks
      (link_by_email (new_internal (baseA ++ [sKeys]) (baseA ++ [sKeys])
          (baseA ++ [sTmp]) false) emailA)
      = some (diff_paths
          (fingerprint_to_path_published (new_internal (baseA ++ [sKeys])
            (baseA ++ [sKeys]) (baseA ++ [sTmp]) false) fprA)
          ((link_by_email (new_internal (baseA ++ [sKeys]) (baseA ++ [sKeys])
            (baseA ++ [sTmp]) false) emailA).dropLast)) :=
  (c3_unlink_only_matching (baseA ++ [sKeys]) (baseA ++ [sKeys])
    (baseA ++ [sTmp]) st_empty emailA fprA fprA fprA fprB (by decide)
    (by decide)).2.2.2.1

/-! C10 -/

/-- C10: index creation and primary-fingerprint lookup compose — after
`link_email e p` the by-email lookup returns p, and after `link_fpr f p` both
the by-fingerprint and the by-keyid lookup return p, each decoded purely from
the entry's relative target. -/
theorem c10_link_then_lookup (ki ke tmp : Path) (st : FsState)
    (e f p : Str) (hp : ValidFpr p = true) (hdd : dotdot ∉ ke) :
    lookup_primary_fingerprint (new_internal ki ke tmp false)
        ((link_email (new_internal ki ke tmp false) st e p).1)
        (.ByEmail e) = some p ∧
    lookup_primary_fingerprint (new_internal ki ke tmp false)
        (link_fpr (new_internal ki ke tmp false) st f p)
        (.ByFingerprint f) = some p ∧
    lookup_primary_fingerprint (new_internal ki ke tmp false)
        (link_fpr (new_internal ki ke tmp false) st f p)
        (.ByKeyID (keyid_of_fpr f)) = some p := by
  have hlk := link_fpr_ne_link_keyid ki ke tmp false f (keyid_of_fpr f)
  have htgt_e : path_to_fingerprint (diff_paths
      (fingerprint_to_path_published (new_internal ki ke tmp false) p)
      ((link_by_email (new_internal ki ke tmp false) e).dropLast)) = some p := by
    rw [expected_email_eq]
    rw [show ddFor (sLinks ::
          (sByEmail :: path_split (formUrlEncode e)).dropLast)
          ++ sPub :: path_split p
        = (ddFor (sLinks ::
            (sByEmail :: path_split (formUrlEncode e)).dropLast)
          ++ [sPub]) ++ path_split p by simp]
    exact path_to_fingerprint_append _ hp
  have htgt_f : path_to_fingerprint (diff_paths
      (fingerprint_to_path_published (new_internal ki ke tmp false) p)
      ((link_by_fingerprint (new_internal ki ke tmp false) f).dropLast))
      = some p := by
    rw [expected_fpr_eq]
    rw [show ddFor (sLinks :: (sByFpr :: path_split f).dropLast)
          ++ sPub :: path_split p
        = (ddFor (sLinks :: (sByFpr :: path_split f).dropLast)
          ++ [sPub]) ++ path_split p by simp]
    exact path_to_fingerprint_append _ hp
  refine ⟨?_, ?_, ?_⟩
  · rw [link_email_creates ki ke tmp st e p hdd]
    simp [lookup_primary_fingerprint, setSymlink, htgt_e]
  · rw [link_fpr_creates ki ke tmp st f p]
    simp [lookup_primary_fingerprint, setSymlink, hlk, htgt_f]
  · rw [link_fpr_creates ki ke tmp st f p]
    simp [lookup_primary_fingerprint, setSymlink, htgt_f]

/-- Witness for C10 at a concrete email and fingerprint. -/
theorem c10_lookup_witness :
    lookup_primary_fingerprint (new_internal (baseA ++ [sKeys])
        (baseA ++ [sKeys]) (baseA ++ [sTmp]) false)
      ((link_email (new_internal (baseA ++ [sKeys]) (baseA ++ [sKeys])
          (baseA ++ [sTmp]) false) st_empty emailA fprA).1)
      (.ByEmail emailA) = some fprA :=
  (c10_link_then_lookup (baseA ++ [sKeys]) (baseA ++ [sKeys])
    (baseA ++ [sTmp]) st_empty emailA fprB fprA (by decide) (by decide)).1

/-! C4 -/

/-- C4 counterexample: a published record sits at the path encoding `fprD`
while its certificate's primary fingerprint is `fprC` — the claim says the
checker reports the I1 mismatch error for this entry, but the pass fails with
the missing-certificate error for `fprD` instead (the mismatch comparison
cannot fire, both sides being decoded from the same path). -/
theorem c4_corrupted_path_reports_missing_tpk :
    check_consistency_i1 db0 st4 parse4
      [fingerprint_to_path_published db0 fprD] = .failed (.noTPK fprD) := by
  decide

/-- C4 amended: over non-symlink published entries the I1 comparison is
between two fingerprints decoded from the same path, so the path-identity
pass can never report the fingerprint-mismatch (`wrongTPK`) error; a
corrupted path surfaces as a malformed-path or missing-certificate failure
instead. -/
theorem c4_i1_mismatch_unreachable (db : Filesystem) (st : FsState)
    (parse : Str → Option TPK) (entries : List Path)
    (hnl : ∀ p ∈ entries, st.symlinks p = none) (q : Path) (a b : Str) :
    check_consistency_i1 db st parse entries ≠ .failed (.wrongTPK q a b) := by
  revert hnl
  induction entries with
  | nil =>
    intro hnl
    simp [check_consistency_i1, perform_checks]
  | cons p rest ih =>
    intro hnl
    have hp : st.symlinks p = none := hnl p (List.mem_cons_self p rest)
    have hrest : ∀ x ∈ rest, st.symlinks x = none :=
      fun x hx => hnl x (List.mem_cons_of_mem p hx)
    have hpp : path_to_primary st p
        = if (st.files p).isSome then path_to_fingerprint p else none := by
      simp [path_to_primary, hp]
    by_cases hfp : (st.files p).isSome = true
    · rw [if_pos hfp] at hpp
      cases hptf : path_to_fingerprint p with
      | none =>
        rw [hptf] at hpp
        simp [check_consistency_i1, perform_checks, hpp]
      | some pr =>
        rw [hptf] at hpp
        cases hlk : lookup_tpk db st parse pr with
        | none =>
          simp [check_consistency_i1, perform_checks, hpp, hlk]
        | some tpk =>
          have hstep : check_consistency_i1 db st parse (p :: rest)
              = check_consistency_i1 db st parse rest := by
            simp [check_consistency_i1, perform_checks, hpp, hlk, i1_check,
              hptf]
          rw [hstep]
          exact ih hrest
    · rw [if_neg hfp] at hpp
      simp [check_consistency_i1, perform_checks, hpp]

/-- Witness for C4 at the concrete corrupted store. -/
theorem c4_unreachable_witness :
    check_consistency_i1 db0 st4 parse4
        [fingerprint_to_path_published db0 fprD]
      ≠ .failed (.wrongTPK (fingerprint_to_path_published db0 fprD)
          fprD fprC) :=
  c4_i1_mismatch_unreachable db0 st4 parse4
    [fingerprint_to_path_published db0 fprD] (fun _ _ => rfl)
    (fingerprint_to_path_published db0 fprD) fprD fprC

end HagridFs
